import Mathlib

/-!
# The pizza order form (`src/frontend/components/Form.js`)

A shallow embedding of the validation schema, of the event handlers of the
`Form` component and of the conditions its markup renders under.

JavaScript strings are sequences of UTF-16 code units and `length` counts code
units, so a string is a list of code units here.

The schema is built from the `yup` library, which is not part of the repository.
The part of `yup` the schema goes through is embedded below as the library runs
it on a string value (`Schema._validate`):

* the value is cast first: the transforms run in order (`trim()` adds one);
* the internal tests run next; `oneOf` installs its whitelist check there, and
  when an internal test fails the schema's `tests` are not run, with
  `abortEarly: false` as well;
* then the tests run in the order they were added (`trim`, `min`, `max`,
  `required`); with `abortEarly: false` every failure is collected, otherwise
  the first one is thrown;
* an object schema validates its fields in the order of its keys and
  `error.inner` lists the failures of all of them, each with its path.

The handlers are `async` only because `validate` returns a promise; each is
taken as one step from the state it was called in to the state after all of its
updates.
-/

namespace Form

/-! ## Strings -/

/-- A JavaScript string: its UTF-16 code units, in order. -/
abbrev JSString := List Nat

/-- The code units of a literal of the source (all literals of `Form.js` that
are used here are ASCII, one code unit per character). -/
def str (s : String) : JSString := s.toList.map Char.toNat

/-- The code units `String.prototype.trim` strips: ECMAScript `WhiteSpace`
(TAB, VT, FF, SP, NBSP, ZWNBSP and the category Zs) and `LineTerminator`
(LF, CR, LS, PS). -/
def isWhiteSpace (c : Nat) : Bool :=
  c == 0x09 || c == 0x0A || c == 0x0B || c == 0x0C || c == 0x0D || c == 0x20 ||
  c == 0xA0 || c == 0x1680 || (0x2000 ≤ c && c ≤ 0x200A) || c == 0x2028 ||
  c == 0x2029 || c == 0x202F || c == 0x205F || c == 0x3000 || c == 0xFEFF

/-- The method `String.prototype.trim`: white space is removed from both ends. -/
def trim (s : JSString) : JSString :=
  (s.dropWhile isWhiteSpace).rdropWhile isWhiteSpace

/-- The string a template literal puts in for a number (a list length here):
its decimal digits. -/
def numToString (n : Nat) : JSString := str (toString n)

/-! ## The part of yup the schema uses -/

/-- One entry of `schema.tests`: the message it fails with and the check it
runs on the cast value. -/
structure YupTest where
  message : JSString
  test : JSString → Bool

/-- A `yup.string()` schema: the transforms `cast` applies, the `oneOf`
whitelist (an internal test in yup, run before `tests`) and the tests. -/
structure StringSchema where
  transforms : List (JSString → JSString)
  whiteList : Option (List JSString × JSString)
  tests : List YupTest

namespace yup

/-- The schema `yup.string()`: no transform that changes a string, no tests. -/
def string : StringSchema := ⟨[], none, []⟩

end yup

namespace StringSchema

/-- The method `.trim()`: a transform that trims and a test `value === value.trim()`
with yup's default message (the path is filled in by the caller). -/
def trim (s : StringSchema) (path : JSString) : StringSchema :=
  { s with
    transforms := s.transforms ++ [Form.trim]
    tests := s.tests ++ [⟨path ++ str " must be a trimmed string", fun v => v == Form.trim v⟩] }

/-- The method `.min(n, message)`: the test `value.length >= n`. -/
def min (s : StringSchema) (n : Nat) (message : JSString) : StringSchema :=
  { s with tests := s.tests ++ [⟨message, fun v => decide (n ≤ v.length)⟩] }

/-- The method `.max(n, message)`: the test `value.length <= n`. -/
def max (s : StringSchema) (n : Nat) (message : JSString) : StringSchema :=
  { s with tests := s.tests ++ [⟨message, fun v => decide (v.length ≤ n)⟩] }

/-- The method `.oneOf(values, message)`: sets the whitelist, which yup checks
as an internal test (`internalTests.whiteList`). -/
def oneOf (s : StringSchema) (values : List JSString) (message : JSString) : StringSchema :=
  { s with whiteList := some (values, message) }

/-- The method `.required(message)` of a string schema: on a string value the
test is `!!value.length` (the non-null and defined checks pass on any string). -/
def required (s : StringSchema) (message : JSString) : StringSchema :=
  { s with tests := s.tests ++ [⟨message, fun v => !v.isEmpty⟩] }

/-- The method `cast`: the transforms are applied in order. -/
def cast (s : StringSchema) (value : JSString) : JSString :=
  s.transforms.foldl (fun v f => f v) value

/-- The messages `schema.validate(value, { abortEarly })` fails with, in order;
the empty list when it resolves.  As in yup's `_validate`: the value is cast;
the internal tests run first and, when one fails, `tests` do not run
(also with `abortEarly: false`); otherwise every test runs and, with
`abortEarly`, only the first failure is reported. -/
def validate (s : StringSchema) (value : JSString) (abortEarly : Bool) : List JSString :=
  let v := s.cast value
  let initialErrors : List JSString :=
    match s.whiteList with
    | some (values, message) => if values.contains v then [] else [message]
    | none => []
  if initialErrors.isEmpty then
    let errs := s.tests.filterMap (fun t => if t.test v then none else some t.message)
    if abortEarly then errs.take 1 else errs
  else initialErrors

end StringSchema

/-! ## The schema of `Form.js` -/

/-- The constant `validationErrors.fullNameTooShort`. -/
def fullNameTooShort : JSString := str "full name must be at least 3 characters"

/-- The constant `validationErrors.fullNameTooLong`. -/
def fullNameTooLong : JSString := str "full name must be at most 20 characters"

/-- The constant `validationErrors.sizeIncorrect`. -/
def sizeIncorrect : JSString := str "size must be S or M or L"

/-- The field `schema.fullName`. -/
def fullNameSchema : StringSchema :=
  (((yup.string.trim (str "fullName")).min 3 fullNameTooShort).max 20 fullNameTooLong).required
    (str "full name must be at least 3 characters")

/-- The field `schema.size`. -/
def sizeSchema : StringSchema :=
  (yup.string.oneOf [str "S", str "M", str "L"] sizeIncorrect).required (str "Size is required")

/-- The element schema of `schema.toppings`: `yup.string()`. -/
def toppingSchema : StringSchema := yup.string

/-! ## Error maps -/

/-- A value stored in the `errors` object: a message or `undefined`. -/
inductive ErrVal where
  | undefined
  | message (s : JSString)
  deriving DecidableEq, Repr

/-- The `errors` object: its own keys in insertion order, each with its value.
A key whose value is `undefined` is still a key of the object. -/
abbrev ErrorMap := List (JSString × ErrVal)

/-- The object `{ ...m, [key]: v }`: the value of an existing key is replaced in
place, a new key is added at the end. -/
def setKey : ErrorMap → JSString → ErrVal → ErrorMap
  | [], key, v => [(key, v)]
  | (k, w) :: m, key, v => if k = key then (key, v) :: m else (k, w) :: setKey m key v

/-- The property read `m[key]`: `undefined` when the key is absent. -/
def getKey : ErrorMap → JSString → ErrVal
  | [], _ => .undefined
  | (k, w) :: m, key => if k = key then w else getKey m key

/-- The call `Object.keys(m)`. -/
def objectKeys (m : ErrorMap) : List JSString := m.map Prod.fst

/-- Truthiness of a value of the `errors` object, as `errors.fullName && ...`
tests it: a non-empty message. -/
def ErrVal.truthy : ErrVal → Bool
  | .undefined => false
  | .message s => !s.isEmpty

/-! ## Validating the whole form -/

/-- The object passed to `schema.validate`. -/
structure FormData where
  fullName : JSString
  size : JSString
  toppings : List JSString
  deriving DecidableEq, Repr

/-- An entry of `error.inner`: the path of the failing field and the message
of the failing test. -/
structure ValidationError where
  path : JSString
  message : JSString
  deriving DecidableEq, Repr

/-- The errors of one string field, each carrying the path of the field. -/
def fieldErrors (path : JSString) (s : StringSchema) (value : JSString) (abortEarly : Bool) :
    List ValidationError :=
  (s.validate value abortEarly).map (fun m => ⟨path, m⟩)

/-- The errors of `toppings: yup.array().of(yup.string())` on an array of
strings: each element is validated by the element schema under the path
`toppings[i]`; the array itself carries no test. -/
def toppingsErrors (toppings : List JSString) : List ValidationError :=
  toppings.enum.flatMap (fun e =>
    fieldErrors (str "toppings[" ++ numToString e.1 ++ str "]") toppingSchema e.2 false)

/-- The list `error.inner` of `schema.validate(formData, { abortEarly: false })`:
every field is validated and the errors come in the order of the keys of the
shape; empty when validation resolves. -/
def schemaValidate (formData : FormData) : List ValidationError :=
  fieldErrors (str "fullName") fullNameSchema formData.fullName false ++
  fieldErrors (str "size") sizeSchema formData.size false ++
  toppingsErrors formData.toppings

/-- What `validateForm` resolves to: `true`, or the object built from
`error.inner`. -/
inductive ValidateResult where
  | valid
  | errors (m : ErrorMap)
  deriving DecidableEq, Repr

/-- The function `validateForm`. -/
def validateForm (formData : FormData) : ValidateResult :=
  match schemaValidate formData with
  | [] => .valid
  | e :: inner =>
    .errors ((e :: inner).foldl
      (fun errors validationError =>
        setKey errors validationError.path (.message validationError.message)) [])

/-- The comparison `isValid === true`. -/
def ValidateResult.isTrue : ValidateResult → Bool
  | .valid => true
  | .errors _ => false

/-! ## The component state and its handlers -/

/-- The state variables of `Form`. -/
structure State where
  selectedToppings : List JSString
  errors : ErrorMap
  isSubmitting : Bool
  successMessage : JSString
  formData : FormData
  isFormValid : Bool
  hasSubmitted : Bool
  deriving DecidableEq, Repr

/-- The initial values given to `useState`. -/
def initialState : State :=
  { selectedToppings := []
    errors := []
    isSubmitting := false
    successMessage := []
    formData := ⟨[], [], []⟩
    isFormValid := false
    hasSubmitted := false }

/-- The flag the effect computes: `validateForm(currentFormData) === true`
with `currentFormData = { ...formData, toppings: selectedToppings }`. -/
def effectFlag (formData : FormData) (selectedToppings : List JSString) : Bool :=
  (validateForm { formData with toppings := selectedToppings }).isTrue

/-- The effect on `[formData, selectedToppings]`: it stores the flag in
`isFormValid`. -/
def runEffect (st : State) : State :=
  { st with isFormValid := effectFlag st.formData st.selectedToppings }

/-- The update `handleToppingChange` makes to `selectedToppings`. -/
def toppingChange (prev : List JSString) (name : JSString) (checked : Bool) : List JSString :=
  if checked then prev ++ [name] else prev.filter (fun topping => topping != name)

/-- The handler `handleToppingChange`. -/
def handleToppingChange (name : JSString) (checked : Bool) (st : State) : State :=
  { st with selectedToppings := toppingChange st.selectedToppings name checked }

/-- The lookup `sizeNames[size]`: `undefined` for a key the object lacks. -/
def sizeNames (size : JSString) : Option JSString :=
  if size = str "S" then some (str "small")
  else if size = str "M" then some (str "medium")
  else if size = str "L" then some (str "large")
  else none

/-- The text a template literal puts in for `sizeNames[size]`. -/
def templateOfLookup : Option JSString → JSString
  | some s => s
  | none => str "undefined"

/-- The constant `toppingsMessage` of `handleSubmit`. -/
def toppingsMessage (toppingsCount : Nat) : JSString :=
  if toppingsCount > 0 then
    str "with " ++ numToString toppingsCount ++ str " topping" ++
      (if toppingsCount > 1 then str "s" else str "")
  else str "with no toppings"

/-- The handler `handleSubmit`: the state once all its updates are applied. -/
def handleSubmit (st : State) : State :=
  let started := { st with isSubmitting := true, hasSubmitted := true, successMessage := [] }
  let currentFormData : FormData :=
    { fullName := trim st.formData.fullName
      size := st.formData.size
      toppings := st.selectedToppings }
  let settled : State :=
    match validateForm currentFormData with
    | .valid =>
      let sizeFullName := sizeNames currentFormData.size
      let toppingsCount := st.selectedToppings.length
      { started with
        successMessage :=
          str "Thank you for your order, " ++ currentFormData.fullName ++ str "! Your " ++
            templateOfLookup sizeFullName ++ str " pizza " ++ toppingsMessage toppingsCount ++
            str " is on the way."
        formData := ⟨[], [], []⟩
        selectedToppings := []
        errors := []
        isFormValid := false
        hasSubmitted := false }
    | .errors isValid => { started with errors := isValid }
  { settled with isSubmitting := false }

/-- The inputs wired to `handleChange`: the `name` attribute is `fullName` or
`size`. -/
inductive Field where
  | fullName
  | size
  deriving DecidableEq, Repr

/-- The `name` attribute of an input. -/
def Field.key : Field → JSString
  | .fullName => str "fullName"
  | .size => str "size"

/-- The schema `yup.reach(schema, name)`. -/
def reach : Field → StringSchema
  | .fullName => fullNameSchema
  | .size => sizeSchema

/-- The per-field check of `handleChange`: what the `try`/`catch` around
`yup.reach(schema, name).validate(value.trim())` writes under `[name]`. -/
def fieldCheck (name : Field) (value : JSString) : ErrVal :=
  match (reach name).validate (trim value) true with
  | [] => .undefined
  | message :: _ => .message message

/-- The object `{ ...formData, [name]: value }`. -/
def setField (formData : FormData) (name : Field) (value : JSString) : FormData :=
  match name with
  | .fullName => { formData with fullName := value }
  | .size => { formData with size := value }

/-- The handler `handleChange`: `setErrors({})` first, then the functional
update that spreads the previous (now empty) object and writes `[name]`. -/
def handleChange (name : Field) (value : JSString) (st : State) : State :=
  let cleared : ErrorMap := []
  { st with
    formData := setField st.formData name value
    errors := setKey cleared name.key (fieldCheck name value) }

/-! ## What the markup renders -/

/-- The condition of the failure banner:
`hasSubmitted && Object.keys(errors).length > 0`. -/
def showFailureBanner (st : State) : Bool :=
  st.hasSubmitted && decide ((objectKeys st.errors).length > 0)

/-- The condition of the inline message of a field: `errors[name] && ...`. -/
def showFieldError (st : State) (name : Field) : Bool :=
  (getKey st.errors name.key).truthy

/-- The attribute `disabled` of the submit input: `!isFormValid || isSubmitting`. -/
def submitDisabled (st : State) : Bool :=
  !st.isFormValid || st.isSubmitting

/-! ## Reading a validation result, events, and the states used as examples -/

/-- The field-to-message object a validation result carries: the object built
in the `catch` branch, and no entry at all when `validateForm` resolves to `true`. -/
def ValidateResult.errorMap : ValidateResult → ErrorMap
  | .valid => []
  | .errors m => m

/-- The events the markup wires to handlers.  A `submit` event of the form
reaches `handleSubmit` whether or not the submit input is enabled. -/
inductive Event where
  | change (name : Field) (value : JSString)
  | topping (name : JSString) (checked : Bool)
  | submit
  deriving DecidableEq, Repr

/-- One event: its handler, then the effect when `formData` or
`selectedToppings` was replaced (a submit that fails validation replaces
neither). -/
def dispatch (st : State) : Event → State
  | .change name value => runEffect (handleChange name value st)
  | .topping name checked => runEffect (handleToppingChange name checked st)
  | .submit =>
    if (validateForm ⟨trim st.formData.fullName, st.formData.size, st.selectedToppings⟩).isTrue
    then runEffect (handleSubmit st) else handleSubmit st

/-- The state after a sequence of events, from the mounted component (the
effect has run once on the initial state). -/
def run (events : List Event) : State :=
  events.foldl dispatch (runEffect initialState)

/-- A click on the checkbox of `name`: the rendered checkbox is checked exactly
when `selectedToppings.includes(name)`, so the event carries the negation. -/
def toggle (selected : List JSString) (name : JSString) : List JSString :=
  toppingChange selected name (!selected.contains name)

/-- An order with two toppings: Alice, M, Pepperoni and Ham. -/
def aliceOrder : State :=
  run [.change .fullName (str "Alice"), .change .size (str "M"),
       .topping (str "Pepperoni") true, .topping (str "Ham") true]

/-- An order with no topping: Alice, L. -/
def plainOrder : State :=
  run [.change .fullName (str "Alice"), .change .size (str "L")]

/-- A form that does not validate: the name is too short. -/
def shortNameOrder : State :=
  run [.change .fullName (str "Al"), .change .size (str "M")]

/-- A form in which only a too short name was typed: its message is on display. -/
def shortNameShown : State :=
  run [.change .fullName (str "Al")]

/-- A rejected submit of the short name, then the name is corrected. -/
def correctedAfterFailure : State :=
  run [.change .fullName (str "Al"), .change .size (str "M"), .submit,
       .change .fullName (str "Alice")]

/-! ## Lemmas on the schema -/

theorem dropWhile_rdropWhile_dropWhile (p : Nat → Bool) (s : List Nat) :
    List.dropWhile p (List.rdropWhile p (List.dropWhile p s)) =
      List.rdropWhile p (List.dropWhile p s) := by
  rcases hl : List.dropWhile p s with _ | ⟨a, r⟩
  · simp
  · have ha : p a = false := by
      have h := List.head_dropWhile_not p s (by simp [hl])
      simpa [hl] using h
    rcases hm : List.rdropWhile p (a :: r) with _ | ⟨b, r'⟩
    · simp
    · have hpre : (b :: r') <+: (a :: r) := hm ▸ List.rdropWhile_prefix p (a :: r)
      have hb : b = a := (List.cons_prefix_cons.mp hpre).1
      subst hb
      simp [List.dropWhile, ha]

/-- Trimming a trimmed string changes nothing. -/
theorem trim_idem (s : JSString) : trim (trim s) = trim s := by
  unfold trim
  rw [dropWhile_rdropWhile_dropWhile, List.rdropWhile_idempotent]

/-- The failures of the `fullName` schema, by the length of the trimmed value.
On the empty string both `min` and `required` fail, with the same text. -/
theorem validate_fullName (s : JSString) (abortEarly : Bool) :
    fullNameSchema.validate s abortEarly =
      if (trim s).length = 0 then
        (if abortEarly then [fullNameTooShort] else [fullNameTooShort, fullNameTooShort])
      else if (trim s).length < 3 then [fullNameTooShort]
      else if 20 < (trim s).length then [fullNameTooLong]
      else [] := by
  have hcast : fullNameSchema.cast s = trim s := rfl
  have hw : fullNameSchema.whiteList = none := rfl
  unfold StringSchema.validate
  simp only [hcast, hw]
  simp [fullNameSchema, StringSchema.required, StringSchema.max, StringSchema.min,
    StringSchema.trim, yup.string, trim_idem]
  have hmsg : str "full name must be at least 3 characters" = fullNameTooShort := rfl
  rw [hmsg]
  generalize trim s = t
  rcases t with _ | ⟨a, t⟩
  · cases abortEarly <;> simp [List.filterMap_cons]
  · have hne : (a :: t) ≠ [] := by simp
    by_cases h3 : 3 ≤ (a :: t).length
    · by_cases h20 : (a :: t).length ≤ 20
      · have h3n : ¬ (a :: t).length < 3 := by omega
        have h20n : ¬ 20 < (a :: t).length := by omega
        cases abortEarly <;> simp only [List.filterMap_cons, h3, h20, h3n, h20n, hne] <;> simp
      · have h3n : ¬ (a :: t).length < 3 := by omega
        have h20n : 20 < (a :: t).length := by omega
        cases abortEarly <;> simp only [List.filterMap_cons, h3, h20, h3n, h20n, hne] <;> simp
    · have h3n : (a :: t).length < 3 := by omega
      have h20 : (a :: t).length ≤ 20 := by omega
      cases abortEarly <;> simp only [List.filterMap_cons, h3, h20, h3n, hne] <;> simp

/-- The failures of the `size` schema: the whitelist decides alone. -/
theorem validate_size (v : JSString) (abortEarly : Bool) :
    sizeSchema.validate v abortEarly =
      if v = str "S" ∨ v = str "M" ∨ v = str "L" then [] else [sizeIncorrect] := by
  have hcast : sizeSchema.cast v = v := rfl
  have hw : sizeSchema.whiteList = some ([str "S", str "M", str "L"], sizeIncorrect) := rfl
  have ht : sizeSchema.tests = [⟨str "Size is required", fun v => !v.isEmpty⟩] := rfl
  unfold StringSchema.validate
  simp only [hcast, hw, ht]
  by_cases h : v = str "S" ∨ v = str "M" ∨ v = str "L"
  · rcases h with h | h | h <;> subst h <;> cases abortEarly <;> decide
  · have hc : ([str "S", str "M", str "L"].contains v) = false := by
      simpa [List.contains_iff_exists_mem_beq] using h
    simp [hc, h]

/-- An array of strings passes the `toppings` schema. -/
theorem toppingsErrors_eq_nil (toppings : List JSString) : toppingsErrors toppings = [] := by
  unfold toppingsErrors
  have h : ∀ (p : JSString) (v : JSString), fieldErrors p toppingSchema v false = [] := by
    intro p v; rfl
  simp [h]

/-- What `validateForm` resolves to, by the two field conditions. -/
theorem validateForm_eq (d : FormData) :
    validateForm d =
      if 3 ≤ (trim d.fullName).length ∧ (trim d.fullName).length ≤ 20 then
        (if d.size = str "S" ∨ d.size = str "M" ∨ d.size = str "L" then .valid
         else .errors [(str "size", .message sizeIncorrect)])
      else
        (if d.size = str "S" ∨ d.size = str "M" ∨ d.size = str "L" then
          .errors [(str "fullName", .message
            (if (trim d.fullName).length < 3 then fullNameTooShort else fullNameTooLong))]
         else
          .errors [(str "fullName", .message
              (if (trim d.fullName).length < 3 then fullNameTooShort else fullNameTooLong)),
            (str "size", .message sizeIncorrect)]) := by
  have hk : str "fullName" ≠ str "size" := by decide
  unfold validateForm schemaValidate fieldErrors
  rw [validate_fullName, validate_size, toppingsErrors_eq_nil]
  by_cases hs : d.size = str "S" ∨ d.size = str "M" ∨ d.size = str "L"
  · by_cases h0 : (trim d.fullName).length = 0
    · simp [hs, h0, setKey]
    · by_cases h3 : (trim d.fullName).length < 3
      · have : ¬ 3 ≤ (trim d.fullName).length := by omega
        simp [hs, h0, h3, this, setKey]
      · by_cases h20 : 20 < (trim d.fullName).length
        · have : ¬ (trim d.fullName).length ≤ 20 := by omega
          simp [hs, h0, h3, h20, this, setKey]
        · have h3p : 3 ≤ (trim d.fullName).length := by omega
          have h20p : (trim d.fullName).length ≤ 20 := by omega
          simp [hs, h0, h3, h20, h3p, h20p]
  · by_cases h0 : (trim d.fullName).length = 0
    · simp [hs, h0, setKey, hk]
    · by_cases h3 : (trim d.fullName).length < 3
      · have : ¬ 3 ≤ (trim d.fullName).length := by omega
        simp [hs, h0, h3, this, setKey, hk]
      · by_cases h20 : 20 < (trim d.fullName).length
        · have : ¬ (trim d.fullName).length ≤ 20 := by omega
          simp [hs, h0, h3, h20, this, setKey, hk]
        · have h3p : 3 ≤ (trim d.fullName).length := by omega
          have h20p : (trim d.fullName).length ≤ 20 := by omega
          simp [hs, h0, h3, h20, h3p, h20p, setKey]

/-- The per-field check of `fullName`, by the length of the trimmed value. -/
theorem fieldCheck_fullName (s : JSString) :
    fieldCheck .fullName s =
      if (trim s).length < 3 then .message fullNameTooShort
      else if 20 < (trim s).length then .message fullNameTooLong
      else .undefined := by
  unfold fieldCheck reach
  simp only [validate_fullName, trim_idem]
  by_cases h0 : (trim s).length = 0
  · have h3 : (trim s).length < 3 := by omega
    simp [h0]
  · by_cases h3 : (trim s).length < 3
    · simp [h0, h3]
    · by_cases h20 : 20 < (trim s).length
      · simp [h0, h3, h20]
      · simp [h0, h3, h20]

/-- The schema trims, so validating the trimmed fullName is validating the
fullName. -/
theorem validateForm_trim (s size : JSString) (toppings : List JSString) :
    validateForm ⟨trim s, size, toppings⟩ = validateForm ⟨s, size, toppings⟩ := by
  rw [validateForm_eq, validateForm_eq]
  simp only [trim_idem]

/-- When `validateForm` resolves to `true`, size is one of the three keys of
`sizeNames`. -/
theorem size_of_valid (d : FormData) (h : validateForm d = .valid) :
    d.size = str "S" ∨ d.size = str "M" ∨ d.size = str "L" := by
  rw [validateForm_eq] at h
  by_cases hs : d.size = str "S" ∨ d.size = str "M" ∨ d.size = str "L"
  · exact hs
  · by_cases hn : 3 ≤ (trim d.fullName).length ∧ (trim d.fullName).length ≤ 20 <;>
      simp [hn, hs] at h

/-- The three shapes of the toppings phrase. -/
theorem toppingsMessage_eq (k : Nat) :
    toppingsMessage k =
      if k = 0 then str "with no toppings"
      else if k = 1 then str "with 1 topping"
      else str "with " ++ numToString k ++ str " toppings" := by
  rcases k with _ | _ | k
  · decide
  · decide
  · have hs : str " toppings" = str " topping" ++ str "s" := by decide
    simp [toppingsMessage, hs]

/-- The state `handleSubmit` leaves when validation passes. -/
theorem handleSubmit_of_valid (st : State)
    (h : validateForm ⟨trim st.formData.fullName, st.formData.size, st.selectedToppings⟩ =
      .valid) :
    handleSubmit st =
      { selectedToppings := []
        errors := []
        isSubmitting := false
        successMessage :=
          str "Thank you for your order, " ++ trim st.formData.fullName ++ str "! Your " ++
            templateOfLookup (sizeNames st.formData.size) ++ str " pizza " ++
            toppingsMessage st.selectedToppings.length ++ str " is on the way."
        formData := ⟨[], [], []⟩
        isFormValid := false
        hasSubmitted := false } := by
  simp only [handleSubmit, h]

/-- The state `handleSubmit` leaves when validation fails with the object `m`. -/
theorem handleSubmit_of_errors (st : State) (m : ErrorMap)
    (h : validateForm ⟨trim st.formData.fullName, st.formData.size, st.selectedToppings⟩ =
      .errors m) :
    handleSubmit st =
      { st with errors := m, isSubmitting := false, hasSubmitted := true, successMessage := [] } := by
  simp only [handleSubmit, h]

/-- Toggling keeps a selection free of repetitions. -/
theorem toggle_nodup (selected : List JSString) (name : JSString) (h : selected.Nodup) :
    (toggle selected name).Nodup := by
  unfold toggle toppingChange
  by_cases hm : name ∈ selected
  · simpa [hm] using h.filter _
  · have hc : selected.contains name = false := by simpa using hm
    simp only [hc, Bool.not_false, if_true]
    exact h.append (List.nodup_singleton _) (List.disjoint_singleton.2 hm)

/-- Any sequence of toggles keeps a selection free of repetitions. -/
theorem foldl_toggle_nodup (names : List JSString) (selected : List JSString)
    (h : selected.Nodup) : (names.foldl toggle selected).Nodup := by
  induction names generalizing selected with
  | nil => simpa using h
  | cons n ns ih => exact ih _ (toggle_nodup selected n h)

/-- The flag of the effect, by the two field conditions; the toppings play no
part. -/
theorem effectFlag_eq (formData : FormData) (toppings : List JSString) :
    effectFlag formData toppings =
      decide ((3 ≤ (trim formData.fullName).length ∧ (trim formData.fullName).length ≤ 20) ∧
        (formData.size = str "S" ∨ formData.size = str "M" ∨ formData.size = str "L")) := by
  unfold effectFlag
  rw [validateForm_eq]
  by_cases hn : 3 ≤ (trim formData.fullName).length ∧ (trim formData.fullName).length ≤ 20 <;>
    by_cases hs : formData.size = str "S" ∨ formData.size = str "M" ∨ formData.size = str "L" <;>
    simp [hn, hs, ValidateResult.isTrue]

/-- One event keeps `isFormValid` equal to the flag of the current data and
`isSubmitting` false. -/
theorem dispatch_in_sync (st : State) (e : Event)
    (h : st.isFormValid = effectFlag st.formData st.selectedToppings ∧ st.isSubmitting = false) :
    (dispatch st e).isFormValid =
        effectFlag (dispatch st e).formData (dispatch st e).selectedToppings ∧
      (dispatch st e).isSubmitting = false := by
  cases e with
  | change name value => exact ⟨rfl, h.2⟩
  | topping name checked => exact ⟨rfl, h.2⟩
  | submit =>
    rcases hr : validateForm ⟨trim st.formData.fullName, st.formData.size, st.selectedToppings⟩
      with _ | m
    · have hd : dispatch st .submit = runEffect (handleSubmit st) := by
        simp [dispatch, hr, ValidateResult.isTrue]
      rw [hd, handleSubmit_of_valid st hr]
      exact ⟨rfl, rfl⟩
    · have hd : dispatch st .submit = handleSubmit st := by
        simp [dispatch, hr, ValidateResult.isTrue]
      rw [hd, handleSubmit_of_errors st m hr]
      exact ⟨h.1, rfl⟩

/-- In every state reached by events, `isFormValid` is the flag of the current
data and `isSubmitting` is false. -/
theorem run_in_sync (events : List Event) :
    (run events).isFormValid =
        effectFlag (run events).formData (run events).selectedToppings ∧
      (run events).isSubmitting = false := by
  have key : ∀ (es : List Event) (st : State),
      (st.isFormValid = effectFlag st.formData st.selectedToppings ∧ st.isSubmitting = false) →
      ((es.foldl dispatch st).isFormValid =
          effectFlag (es.foldl dispatch st).formData (es.foldl dispatch st).selectedToppings ∧
        (es.foldl dispatch st).isSubmitting = false) := by
    intro es
    induction es with
    | nil => intro st h; exact h
    | cons e es ih => intro st h; exact ih _ (dispatch_in_sync st e h)
  exact key events _ ⟨rfl, rfl⟩

/-! ## The claims -/

/-- C1: for every string given as `fullName`, with `t` the trimmed string, the
`fullName` entry of what `validateForm` reports and the result of the per-field
check of `handleChange` are both: the message
'full name must be at least 3 characters' when `length t < 3` (the empty string
included), 'full name must be at most 20 characters' when `length t > 20`, and
no message otherwise; so each passes exactly when `3 <= length t <= 20`. -/
theorem fullName_validation (s size : JSString) (toppings : List JSString) :
    getKey (validateForm ⟨s, size, toppings⟩).errorMap (str "fullName") =
      (if (trim s).length < 3 then .message (str "full name must be at least 3 characters")
       else if 20 < (trim s).length then
        .message (str "full name must be at most 20 characters")
       else .undefined) ∧
    (str "fullName" ∉ objectKeys (validateForm ⟨s, size, toppings⟩).errorMap ↔
      3 ≤ (trim s).length ∧ (trim s).length ≤ 20) ∧
    fieldCheck .fullName s =
      (if (trim s).length < 3 then .message (str "full name must be at least 3 characters")
       else if 20 < (trim s).length then
        .message (str "full name must be at most 20 characters")
       else .undefined) ∧
    (fieldCheck .fullName s = .undefined ↔ 3 ≤ (trim s).length ∧ (trim s).length ≤ 20) := by
  have hk : str "size" ≠ str "fullName" := by decide
  have hk2 : str "fullName" ≠ str "size" := by decide
  have e1 : str "full name must be at least 3 characters" = fullNameTooShort := rfl
  have e2 : str "full name must be at most 20 characters" = fullNameTooLong := rfl
  rw [e1, e2, validateForm_eq, fieldCheck_fullName]
  by_cases h3 : (trim s).length < 3
  · have h3n : ¬ 3 ≤ (trim s).length := by omega
    by_cases hs : size = str "S" ∨ size = str "M" ∨ size = str "L" <;>
      simp [h3, h3n, hs, ValidateResult.errorMap, getKey, objectKeys]
  · have h3p : 3 ≤ (trim s).length := by omega
    by_cases h20 : 20 < (trim s).length
    · have h20n : ¬ (trim s).length ≤ 20 := by omega
      by_cases hs : size = str "S" ∨ size = str "M" ∨ size = str "L" <;>
        simp [h3, h3p, h20, h20n, hs, ValidateResult.errorMap, getKey, objectKeys]
    · have h20p : (trim s).length ≤ 20 := by omega
      by_cases hs : size = str "S" ∨ size = str "M" ∨ size = str "L" <;>
        simp [h3, h3p, h20, h20p, hs, ValidateResult.errorMap, getKey, objectKeys, hk, hk2]

/-- C2: at fullName 'Alice' and the empty size, the size entry of what
`validateForm` reports is 'size must be S or M or L', not 'Size is required':
the whitelist of `oneOf` rejects the empty string before the `required` test can
run, and so no string value of size is ever answered 'Size is required'. -/
theorem size_empty_message :
    getKey (validateForm ⟨str "Alice", str "", []⟩).errorMap (str "size") =
      .message (str "size must be S or M or L") ∧
    getKey (validateForm ⟨str "Alice", str "", []⟩).errorMap (str "size") ≠
      .message (str "Size is required") ∧
    fieldCheck .size (str "") = .message (str "size must be S or M or L") ∧
    ∀ (v : JSString) (abortEarly : Bool),
      str "Size is required" ∉ sizeSchema.validate v abortEarly := by
  refine ⟨by decide, by decide, by decide, ?_⟩
  intro v abortEarly
  rw [validate_size]
  have hne : str "Size is required" ≠ sizeIncorrect := by decide
  split <;> simp [hne]

/-- C3: the flag the effect computes is true exactly when the trimmed fullName
has a length in [3,20] and size is S, M or L; it is the same for any two toppings
lists; once the effect has stored it, the submit control is enabled exactly when
the flag is true and `isSubmitting` is false; and so in every state reached by
events the submit control is enabled exactly when both fields are valid. -/
theorem submit_enabled_iff (st : State) (toppings others : List JSString)
    (events : List Event) :
    (effectFlag st.formData toppings = true ↔
      (3 ≤ (trim st.formData.fullName).length ∧ (trim st.formData.fullName).length ≤ 20) ∧
      (st.formData.size = str "S" ∨ st.formData.size = str "M" ∨ st.formData.size = str "L")) ∧
    effectFlag st.formData toppings = effectFlag st.formData others ∧
    (runEffect st).isFormValid = effectFlag st.formData st.selectedToppings ∧
    (submitDisabled (runEffect st) = false ↔
      effectFlag st.formData st.selectedToppings = true ∧ st.isSubmitting = false) ∧
    (submitDisabled (run events) = false ↔
      (3 ≤ (trim (run events).formData.fullName).length ∧
        (trim (run events).formData.fullName).length ≤ 20) ∧
      ((run events).formData.size = str "S" ∨ (run events).formData.size = str "M" ∨
        (run events).formData.size = str "L")) := by
  refine ⟨?_, ?_, rfl, ?_, ?_⟩
  · rw [effectFlag_eq]; simp
  · rw [effectFlag_eq, effectFlag_eq]
  · simp [submitDisabled, runEffect]
  · have hsync := run_in_sync events
    simp only [submitDisabled, hsync.1, hsync.2, effectFlag_eq]
    simp
    tauto

/-- C9: `validateForm` checks every field: the object it reports has a `fullName`
key exactly when the trimmed fullName has no length in [3,20] and a `size` key
exactly when size is none of S, M, L (both for fullName 'Al' with the empty
size); it resolves to `true` exactly when neither fails; and whatever the toppings
list, its keys are among `fullName` and `size`, so `toppings` is never one. -/
theorem validateForm_collects_all (d : FormData) :
    (str "fullName" ∈ objectKeys (validateForm d).errorMap ↔
      ¬ (3 ≤ (trim d.fullName).length ∧ (trim d.fullName).length ≤ 20)) ∧
    (str "size" ∈ objectKeys (validateForm d).errorMap ↔
      ¬ (d.size = str "S" ∨ d.size = str "M" ∨ d.size = str "L")) ∧
    (validateForm d = .valid ↔
      (3 ≤ (trim d.fullName).length ∧ (trim d.fullName).length ≤ 20) ∧
      (d.size = str "S" ∨ d.size = str "M" ∨ d.size = str "L")) ∧
    str "toppings" ∉ objectKeys (validateForm d).errorMap ∧
    (∀ key ∈ objectKeys (validateForm d).errorMap, key = str "fullName" ∨ key = str "size") ∧
    objectKeys (validateForm ⟨str "Al", str "", []⟩).errorMap = [str "fullName", str "size"] := by
  have hk : str "size" ≠ str "fullName" := by decide
  have hk2 : str "fullName" ≠ str "size" := by decide
  have ht1 : str "toppings" ≠ str "fullName" := by decide
  have ht2 : str "toppings" ≠ str "size" := by decide
  rw [validateForm_eq]
  refine ⟨?_, ?_, ?_, ?_, ?_, by decide⟩ <;>
    by_cases hn : 3 ≤ (trim d.fullName).length ∧ (trim d.fullName).length ≤ 20 <;>
    by_cases hs : d.size = str "S" ∨ d.size = str "M" ∨ d.size = str "L" <;>
    simp [hn, hs, ValidateResult.errorMap, objectKeys, hk, hk2, ht1, ht2]

/-- C4: when validation passes at submit, the success message is
'Thank you for your order, n! Your z pizza P is on the way.' with n the trimmed
fullName, z small, medium or large for size S, M or L, and P 'with no toppings',
'with 1 topping' or 'with k toppings' for k = 0, k = 1 or k >= 2 selected
toppings. -/
theorem handleSubmit_successMessage (st : State)
    (h : validateForm ⟨trim st.formData.fullName, st.formData.size, st.selectedToppings⟩ =
      .valid) :
    (st.formData.size = str "S" ∨ st.formData.size = str "M" ∨ st.formData.size = str "L") ∧
    (handleSubmit st).successMessage =
      str "Thank you for your order, " ++ trim st.formData.fullName ++ str "! Your " ++
        (if st.formData.size = str "S" then str "small"
         else if st.formData.size = str "M" then str "medium"
         else str "large") ++
        str " pizza " ++
        (if st.selectedToppings.length = 0 then str "with no toppings"
         else if st.selectedToppings.length = 1 then str "with 1 topping"
         else str "with " ++ numToString st.selectedToppings.length ++ str " toppings") ++
        str " is on the way." := by
  have hs := size_of_valid _ h
  refine ⟨hs, ?_⟩
  rw [handleSubmit_of_valid st h, ← toppingsMessage_eq]
  have hz : templateOfLookup (sizeNames st.formData.size) =
      (if st.formData.size = str "S" then str "small"
       else if st.formData.size = str "M" then str "medium"
       else str "large") := by
    simp only at hs
    rcases hs with hs | hs | hs <;> rw [hs] <;> decide
  simp only [hz]

/-- The scenario of C4: Alice, M, Pepperoni and Ham. -/
theorem handleSubmit_successMessage_alice :
    validateForm ⟨trim aliceOrder.formData.fullName, aliceOrder.formData.size,
      aliceOrder.selectedToppings⟩ = .valid ∧
    (handleSubmit aliceOrder).successMessage =
      str "Thank you for your order, Alice! Your medium pizza with 2 toppings is on the way." :=
  ⟨by decide, (handleSubmit_successMessage aliceOrder (by decide)).2.trans (by decide)⟩

/-- C5, as the code has it: `handleChange` empties the `errors` object before it
writes the entry of the edited field, so afterwards the object has that one key
(holding the field's message, or `undefined`) and every other field reads
`undefined`, whatever it held before. -/
theorem handleChange_errors (st : State) (name : Field) (value : JSString) :
    (handleChange name value st).errors = [(name.key, fieldCheck name value)] ∧
    objectKeys (handleChange name value st).errors = [name.key] ∧
    getKey (handleChange name value st).errors name.key = fieldCheck name value ∧
    (∀ other : Field, other ≠ name →
      getKey (handleChange name value st).errors other.key = .undefined) ∧
    (handleChange name value st).formData = setField st.formData name value ∧
    (handleChange name value st).selectedToppings = st.selectedToppings := by
  refine ⟨rfl, rfl, by simp [handleChange, setKey, getKey], ?_, rfl, rfl⟩
  intro other hne
  have hk : str "fullName" ≠ str "size" := by decide
  have hk2 : str "size" ≠ str "fullName" := by decide
  cases name <;> cases other <;>
    first
      | exact absurd rfl hne
      | simp [handleChange, setKey, getKey, Field.key, hk, hk2]

/-- C5 as stated fails: the message of the too short name is on display, size is
edited, and the `fullName` entry is gone. -/
theorem handleChange_drops_other_entry :
    getKey shortNameShown.errors Field.fullName.key =
      .message (str "full name must be at least 3 characters") ∧
    getKey (handleChange .size (str "M") shortNameShown).errors Field.fullName.key =
      .undefined ∧
    getKey (handleChange .size (str "M") shortNameShown).errors Field.fullName.key ≠
      getKey shortNameShown.errors Field.fullName.key := by
  decide

/-- C6: after a rejected submit of the name 'Al' and the edit of the name to
'Alice', no field has a message (both entries read `undefined` and no inline
message is rendered), yet the banner 'Something went wrong' is rendered: the
`errors` object still has the key `fullName`, with the value `undefined`. -/
theorem banner_without_message :
    correctedAfterFailure.hasSubmitted = true ∧
    correctedAfterFailure.errors = [(str "fullName", .undefined)] ∧
    getKey correctedAfterFailure.errors Field.fullName.key = .undefined ∧
    getKey correctedAfterFailure.errors Field.size.key = .undefined ∧
    showFieldError correctedAfterFailure .fullName = false ∧
    showFieldError correctedAfterFailure .size = false ∧
    showFailureBanner correctedAfterFailure = true := by
  decide

/-- C7: when validation fails at submit, `handleSubmit` leaves `formData` and the
selected toppings as they were, stores as `errors` the object `validateForm`
reports (for the submitted data, and equally for the untrimmed state), sets
`hasSubmitted`, leaves the success message empty and ends with `isSubmitting`
false; no effect runs after it. -/
theorem handleSubmit_failure (st : State)
    (h : validateForm ⟨trim st.formData.fullName, st.formData.size, st.selectedToppings⟩ ≠
      .valid) :
    (handleSubmit st).formData = st.formData ∧
    (handleSubmit st).selectedToppings = st.selectedToppings ∧
    validateForm ⟨trim st.formData.fullName, st.formData.size, st.selectedToppings⟩ =
      .errors (handleSubmit st).errors ∧
    validateForm ⟨st.formData.fullName, st.formData.size, st.selectedToppings⟩ =
      .errors (handleSubmit st).errors ∧
    (handleSubmit st).hasSubmitted = true ∧
    (handleSubmit st).successMessage = [] ∧
    (handleSubmit st).isSubmitting = false ∧
    (handleSubmit st).isFormValid = st.isFormValid ∧
    dispatch st .submit = handleSubmit st := by
  rcases hr : validateForm ⟨trim st.formData.fullName, st.formData.size, st.selectedToppings⟩
    with _ | m
  · exact absurd hr h
  · have hd : dispatch st .submit = handleSubmit st := by
      simp [dispatch, hr, ValidateResult.isTrue]
    have ht := validateForm_trim st.formData.fullName st.formData.size st.selectedToppings
    rw [hr] at ht
    rw [hd, handleSubmit_of_errors st m hr]
    exact ⟨rfl, rfl, rfl, ht.symm, rfl, rfl, rfl, rfl, rfl⟩

/-- The scenario of C7: the name 'Al' with size M is rejected with the message of
the short name. -/
theorem handleSubmit_failure_shortName :
    validateForm ⟨trim shortNameOrder.formData.fullName, shortNameOrder.formData.size,
      shortNameOrder.selectedToppings⟩ ≠ .valid ∧
    (handleSubmit shortNameOrder).formData = ⟨str "Al", str "M", []⟩ ∧
    (handleSubmit shortNameOrder).errors =
      [(str "fullName", .message (str "full name must be at least 3 characters"))] ∧
    (handleSubmit shortNameOrder).hasSubmitted = true :=
  have h := handleSubmit_failure shortNameOrder (by decide)
  ⟨by decide, h.1.trans (by decide), by decide, h.2.2.2.2.1⟩

/-- C8: when validation passes at submit, `handleSubmit` leaves the empty state:
fullName '', size '', toppings [], no selected topping, an `errors` object with
no key, `isFormValid`, `hasSubmitted` and `isSubmitting` false; the success
message is not empty, and the effect that follows changes nothing. -/
theorem handleSubmit_resets (st : State)
    (h : validateForm ⟨trim st.formData.fullName, st.formData.size, st.selectedToppings⟩ =
      .valid) :
    (handleSubmit st).formData = ⟨[], [], []⟩ ∧
    (handleSubmit st).selectedToppings = [] ∧
    (handleSubmit st).errors = [] ∧
    objectKeys (handleSubmit st).errors = [] ∧
    (handleSubmit st).isFormValid = false ∧
    (handleSubmit st).hasSubmitted = false ∧
    (handleSubmit st).isSubmitting = false ∧
    (handleSubmit st).successMessage ≠ [] ∧
    handleSubmit st = { initialState with successMessage := (handleSubmit st).successMessage } ∧
    dispatch st .submit = handleSubmit st := by
  have hd : dispatch st .submit = runEffect (handleSubmit st) := by
    simp [dispatch, h, ValidateResult.isTrue]
  have hm : str "Thank you for your order, " ≠ [] := by decide
  rw [hd, handleSubmit_of_valid st h]
  refine ⟨rfl, rfl, rfl, rfl, rfl, rfl, rfl, ?_, rfl, ?_⟩
  · intro hnil
    simp only [List.append_assoc, List.append_eq_nil] at hnil
    exact hm hnil.1
  · have he : effectFlag ⟨[], [], []⟩ [] = false := by decide
    simp only [runEffect, he]

/-- The scenario of C8: Alice, L, no topping. -/
theorem handleSubmit_resets_plain :
    validateForm ⟨trim plainOrder.formData.fullName, plainOrder.formData.size,
      plainOrder.selectedToppings⟩ = .valid ∧
    handleSubmit plainOrder =
      { initialState with
        successMessage :=
          str "Thank you for your order, Alice! Your large pizza with no toppings is on the way." } :=
  ⟨by decide, (handleSubmit_resets plainOrder (by decide)).2.2.2.2.2.2.2.2.1.trans (by decide)⟩

/-- C10: in every selection reached from the empty one by clicks on checkboxes
(each event carrying the negation of the label's membership), no label occurs
twice; checking a label appends it at the end; unchecking a label removes its
first entry and keeps the others in their order, and no entry of it is left. -/
theorem selection_no_duplicates (clicks : List JSString) (name : JSString) :
    (clicks.foldl toggle []).Nodup ∧
    toppingChange (clicks.foldl toggle []) name true = clicks.foldl toggle [] ++ [name] ∧
    toppingChange (clicks.foldl toggle []) name false = (clicks.foldl toggle []).erase name ∧
    name ∉ toppingChange (clicks.foldl toggle []) name false ∧
    toggle (clicks.foldl toggle []) name =
      (if name ∈ clicks.foldl toggle [] then (clicks.foldl toggle []).erase name
       else clicks.foldl toggle [] ++ [name]) := by
  have hnd : (clicks.foldl toggle []).Nodup := foldl_toggle_nodup clicks [] List.nodup_nil
  have her : toppingChange (clicks.foldl toggle []) name false =
      (clicks.foldl toggle []).erase name := by
    rw [hnd.erase_eq_filter]; rfl
  refine ⟨hnd, rfl, her, ?_, ?_⟩
  · simp [toppingChange]
  · by_cases hm : name ∈ clicks.foldl toggle []
    · have hc : (clicks.foldl toggle []).contains name = true := by simpa using hm
      simp only [toggle, hc, hm, if_true, Bool.not_true, her]
    · have hc : (clicks.foldl toggle []).contains name = false := by simpa using hm
      simp [toggle, hc, hm, toppingChange]

end Form
